import Mathlib

/-!
Shallow embedding of the task-planner repository.

The repository holds two near-duplicate variants of the same JSON-backed
task planner:

* `src/imperative/test.py` — module-level functions (`add_task`,
  `update_task`, `delete_task`, `filter_tasks`, `sort_tasks`,
  `validate_task`, `renumber_tasks`, `load_tasks`, `save_tasks`) written
  with loops and in-place mutation; embedded below in namespace `Imp`.
* `src/functional_programming/concept_project.py` — a `TaskManager` class
  whose methods are written with hand-rolled recursion and an immutable
  `Task` dataclass; embedded below in namespace `Func`.

Modelling conventions:

* A Python `datetime` is a `DateTime` record of numeric components
  (naive date-times compare lexicographically by component).
* The JSON file is modelled by `FileState`: absent, syntactically invalid
  JSON, or a parsed array of records (`TaskDict`), each record holding an
  optional value per key (a `none` field models a missing key, which makes
  the corresponding dictionary lookup raise `KeyError`).
* `datetime.strptime(s, "%Y-%m-%d %H:%M:%S")` is embedded by `parseDT`
  (`none` models an uncaught `ValueError`); `strftime` by `formatDT`,
  which zero-pads the year to four digits as the CPython runtime the
  repository targets does.
* Functions that call `save_tasks` take and return the `FileState`;
  functions whose bodies never touch the file return it unchanged.
* The two hand-written bubble sorts mutate a list in place (imperative
  variant) or a copy of it (functional variant); operations that mutate a
  caller-visible list are embedded as state transformers that return the
  final contents of that list alongside the Python return value.
* The functional variant's `filter_recursively` and `delete_recursively`
  accumulate into a default-argument list; both are nested defs, so the
  default `[]` is re-evaluated — fresh and empty — on every call of the
  enclosing method. Where the accumulator's initial contents appear as a
  parameter below, the program always passes the empty list.
-/

namespace Planner

/-- A naive Python `datetime`: numeric components, compared lexicographically. -/
structure DateTime where
  year : Nat
  month : Nat
  day : Nat
  hour : Nat
  minute : Nat
  second : Nat
  microsecond : Nat
deriving DecidableEq, Repr

/-- Python `<` on naive datetimes: lexicographic comparison by component. -/
def dtLt (a b : DateTime) : Bool :=
  if a.year ≠ b.year then decide (a.year < b.year)
  else if a.month ≠ b.month then decide (a.month < b.month)
  else if a.day ≠ b.day then decide (a.day < b.day)
  else if a.hour ≠ b.hour then decide (a.hour < b.hour)
  else if a.minute ≠ b.minute then decide (a.minute < b.minute)
  else if a.second ≠ b.second then decide (a.second < b.second)
  else decide (a.microsecond < b.microsecond)

/-- Python `<=` on naive datetimes. -/
def dtLe (a b : DateTime) : Bool := dtLt a b || decide (a = b)

/-- Python `>` on naive datetimes (used by the due-date sort key). -/
def dtGt (a b : DateTime) : Bool := dtLt b a

theorem dtLt_irrefl (d : DateTime) : dtLt d d = false := by
  simp [dtLt]

/-- Gregorian leap-year rule, as `datetime` uses for day-of-month validation. -/
def isLeap (y : Nat) : Bool := y % 4 == 0 && (y % 100 != 0 || y % 400 == 0)

/-- Number of days in a month, as `datetime` validates on construction. -/
def daysInMonth (y m : Nat) : Nat :=
  match m with
  | 2 => if isLeap y then 29 else 28
  | 4 => 30
  | 6 => 30
  | 9 => 30
  | 11 => 30
  | _ => 31

/-- The decimal digit character for a value below ten. -/
def digitChar (n : Nat) : Char :=
  match n with
  | 0 => '0'
  | 1 => '1'
  | 2 => '2'
  | 3 => '3'
  | 4 => '4'
  | 5 => '5'
  | 6 => '6'
  | 7 => '7'
  | 8 => '8'
  | _ => '9'

/-- Numeric value of a decimal digit character. -/
def charVal (c : Char) : Nat := c.toNat - 48

/-- Whether a character is a decimal digit (what `\d` matches in `strptime`). -/
def isDigitChar (c : Char) : Bool := 48 ≤ c.toNat && c.toNat ≤ 57

/-- Two-digit zero-padded rendering (strftime `%m`, `%d`, `%H`, `%M`, `%S`). -/
def pad2 (n : Nat) : List Char := [digitChar (n / 10), digitChar (n % 10)]

/-- Four-digit zero-padded rendering (strftime `%Y`). -/
def pad4 (n : Nat) : List Char :=
  [digitChar (n / 1000), digitChar (n / 100 % 10),
   digitChar (n / 10 % 10), digitChar (n % 10)]

/-- `due_date.strftime("%Y-%m-%d %H:%M:%S")`: sub-second precision is dropped. -/
def formatDT (d : DateTime) : String :=
  String.mk (pad4 d.year ++ '-' :: (pad2 d.month ++ '-' :: (pad2 d.day ++
    ' ' :: (pad2 d.hour ++ ':' :: (pad2 d.minute ++ ':' :: pad2 d.second)))))

/-- `strptime` numeric field of one or two digits, matched greedily; the
regex alternations such as `2[0-3]|[0-1]\d|\d` reject the same strings as
reading up to two digits and then range-checking, because the character
after a rejected two-digit read is itself a digit and can never match the
following literal separator. -/
def readDigits2 : List Char → Option (Nat × List Char)
  | [] => none
  | [c] => if isDigitChar c then some (charVal c, []) else none
  | c1 :: c2 :: rest =>
      if isDigitChar c1 then
        if isDigitChar c2 then some (charVal c1 * 10 + charVal c2, rest)
        else some (charVal c1, c2 :: rest)
      else none

/-- `strptime` `%Y`: exactly four digits. -/
def readDigits4 : List Char → Option (Nat × List Char)
  | c1 :: c2 :: c3 :: c4 :: rest =>
      if isDigitChar c1 && isDigitChar c2 && isDigitChar c3 && isDigitChar c4 then
        some (((charVal c1 * 10 + charVal c2) * 10 + charVal c3) * 10 + charVal c4, rest)
      else none
  | _ => none

/-- Match one literal separator character. -/
def expectChar (c : Char) : List Char → Option (List Char)
  | [] => none
  | d :: rest => if d = c then some rest else none

/-- `datetime.strptime(s, "%Y-%m-%d %H:%M:%S")`; `none` models the
`ValueError` raised on a format mismatch, an out-of-range component, or
unconverted trailing data. The parsed value has microsecond zero. -/
def parseDT (s : String) : Option DateTime := do
  let (y, r1) ← readDigits4 s.data
  let r2 ← expectChar '-' r1
  let (mo, r3) ← readDigits2 r2
  let r4 ← expectChar '-' r3
  let (dy, r5) ← readDigits2 r4
  let r6 ← expectChar ' ' r5
  let (hh, r7) ← readDigits2 r6
  let r8 ← expectChar ':' r7
  let (mi, r9) ← readDigits2 r8
  let r10 ← expectChar ':' r9
  let (ss, r11) ← readDigits2 r10
  if r11 = [] ∧ 1 ≤ y ∧ 1 ≤ mo ∧ mo ≤ 12 ∧ 1 ≤ dy ∧ dy ≤ daysInMonth y mo ∧
      hh ≤ 23 ∧ mi ≤ 59 ∧ ss ≤ 59 then
    some ⟨y, mo, dy, hh, mi, ss, 0⟩
  else none

/-- Component ranges a Python `datetime` value always satisfies by
construction (its constructor rejects anything else). -/
def ValidDT (d : DateTime) : Prop :=
  1 ≤ d.year ∧ d.year ≤ 9999 ∧ 1 ≤ d.month ∧ d.month ≤ 12 ∧
  1 ≤ d.day ∧ d.day ≤ daysInMonth d.year d.month ∧
  d.hour ≤ 23 ∧ d.minute ≤ 59 ∧ d.second ≤ 59

instance (d : DateTime) : Decidable (ValidDT d) := by
  unfold ValidDT; infer_instance

/-- One task record, mirroring both the imperative task dict and the
functional `Task` dataclass. -/
structure Task where
  task_id : String
  description : String
  due_date : DateTime
  priority : Int
  status : String
deriving DecidableEq, Repr

/-- A partial update: the keys that may occur in the `updates` dictionary
built by `submit_update` (`description`, `due_date`, `priority`,
`status`); a `none` field models an absent key. -/
structure Updates where
  description : Option String
  due_date : Option DateTime
  priority : Option Int
  status : Option String
deriving DecidableEq, Repr

/-- The merged task: `{**task, **updates}` in the imperative variant and
`custom_replace(task, description=updates.get("description", ...), ...)`
in the functional one — a field is replaced exactly when the key is
present in the updates, and `task_id` is never touched. -/
def mergeTask (t : Task) (u : Updates) : Task :=
  { task_id := t.task_id
    description := u.description.getD t.description
    due_date := u.due_date.getD t.due_date
    priority := u.priority.getD t.priority
    status := u.status.getD t.status }

/-- One JSON object of the persisted array; a `none` field models a
missing key, whose lookup raises `KeyError`. The due date is the raw
string still to be parsed. -/
structure TaskDict where
  task_id : Option String
  description : Option String
  due_date : Option String
  priority : Option Int
  status : Option String
deriving DecidableEq, Repr

/-- The Python exceptions the loaders can raise while converting records. -/
inductive PyErr
  | keyError
  | valueError
deriving DecidableEq, Repr

/-- The persisted store: the file may be absent, hold syntactically
invalid JSON, or hold a parsed JSON array of records. -/
inductive FileState
  | absent
  | invalidJson
  | records (rs : List TaskDict)
deriving DecidableEq, Repr

/-- The JSON object `save_tasks` writes for one task. -/
def taskToDict (t : Task) : TaskDict :=
  { task_id := some t.task_id
    description := some t.description
    due_date := some (formatDT t.due_date)
    priority := some t.priority
    status := some t.status }

/-- Conversion of one record back into a task, in the source's evaluation
order: `task_id`, `description`, `due_date` (parsed with `strptime`),
`priority`, `status`. A missing key raises `KeyError`; an unparseable
date raises `ValueError`. -/
def loadRecord (r : TaskDict) : Except PyErr Task :=
  match r.task_id with
  | none => .error .keyError
  | some tid =>
    match r.description with
    | none => .error .keyError
    | some desc =>
      match r.due_date with
      | none => .error .keyError
      | some ds =>
        match parseDT ds with
        | none => .error .valueError
        | some dt =>
          match r.priority with
          | none => .error .keyError
          | some p =>
            match r.status with
            | none => .error .keyError
            | some st => .ok ⟨tid, desc, dt, p, st⟩

/-- The imperative loader's `for task_dict in task_dicts` loop: records in
order, first exception aborts the whole conversion. -/
def loadRecords : List TaskDict → Except PyErr (List Task)
  | [] => .ok []
  | r :: rest =>
    match loadRecord r with
    | .error e => .error e
    | .ok t =>
      match loadRecords rest with
      | .error e => .error e
      | .ok ts => .ok (t :: ts)

/-- One bounded bubble pass: at most `k` compare-and-swap steps walking
from the head, swapping adjacent elements exactly when
`key(left) > key(right)` (the comparison both hand-written sorts use).
This is the inner `for j in range(limit)` loop of the imperative
`my_sorted` and the `i = 0 .. n-2` stepping of the functional
`bubble_sort`, both of which carry a swapped-forward element along. -/
def passUpTo {α : Type} (gt : α → α → Bool) : Nat → List α → List α
  | 0, l => l
  | _ + 1, [] => []
  | _ + 1, [a] => [a]
  | k + 1, a :: b :: rest =>
      if gt a b then b :: passUpTo gt k (a :: rest)
      else a :: passUpTo gt k (b :: rest)

/-- The sequence of shrinking bubble passes with limits `m, m-1, ..., 1`.
The imperative `my_sorted` runs limits `n-1, ..., 1, 0` (the final
`0`-limit pass is a no-op) and the functional `bubble_sort` runs limits
`n-1, ..., 1` before hitting its `n == 1` base case, so on a list of
length `n ≥ 1` both compute `bubbleAux gt (n-1)`. -/
def bubbleAux {α : Type} (gt : α → α → Bool) : Nat → List α → List α
  | 0, l => l
  | m + 1, l => bubbleAux gt m (passUpTo gt (m + 1) l)

/-- `renumber_tasks`, generalized over the starting index of its
`enumerate` loop (imperative) or `index` argument (functional): the task
at offset `j` from index `i` gets `task_id = "T" + str(i + j + 1)`. -/
def renumberFrom : Nat → List Task → List Task
  | _, [] => []
  | i, t :: rest => { t with task_id := "T" ++ toString (i + 1) } :: renumberFrom (i + 1) rest

/-- The renumbering invariant of the spec: the task at every position `i`
carries `task_id = "T" + str(i + 1)`. -/
def Numbered (ts : List Task) : Prop :=
  ∀ i (h : i < ts.length), (ts.get ⟨i, h⟩).task_id = "T" ++ toString (i + 1)

instance (ts : List Task) : Decidable (Numbered ts) := by
  unfold Numbered; infer_instance

namespace Imp

/-- `my_sorted` of the imperative variant: a nested-loop bubble sort that
swaps elements of its argument in place and returns that same list, so
the returned list is also the final state of the caller's list. -/
def my_sorted {α : Type} (gt : α → α → Bool) (l : List α) : List α :=
  bubbleAux gt (l.length - 1) l

/-- `validate_task`: the error message, or `None` when the task is valid.
`now` stands for `datetime.now()` at the moment of the call. -/
def validate_task (now : DateTime) (t : Task) : Option String :=
  if t.priority < 1 ∨ t.priority > 10 then some "Priority must be between 1 and 10!"
  else if dtLe t.due_date now = true then some "Due date must be in the future!"
  else none

/-- `renumber_tasks`: reassign `task_id = "T" + str(i + 1)` to the task at
every index `i`. -/
def renumber_tasks (ts : List Task) : List Task := renumberFrom 0 ts

/-- `save_tasks`: the JSON array written to the file. -/
def save_tasks (ts : List Task) : List TaskDict := ts.map taskToDict

/-- `load_tasks`: absent file and the caught `JSONDecodeError` /
`KeyError` / `FileNotFoundError` all yield `[]`; the `ValueError` a
malformed due date raises is not in the `except` clause and escapes. -/
def load_tasks : FileState → Except PyErr (List Task)
  | .absent => .ok []
  | .invalidJson => .ok []
  | .records rs =>
    match loadRecords rs with
    | .ok ts => .ok ts
    | .error .keyError => .ok []
    | .error .valueError => .error .valueError

/-- `add_task`: build the candidate task, validate it, and on success
append, renumber the whole list, and save; on failure return the list
unchanged and `None` without touching the file. -/
def add_task (now : DateTime) (store : FileState) (ts : List Task)
    (description : String) (due_date : DateTime) (priority : Int) :
    FileState × List Task × Option Task :=
  let new_task : Task :=
    { task_id := "T" ++ toString (ts.length + 1)
      description := description
      due_date := due_date
      priority := priority
      status := "Pending" }
  match validate_task now new_task with
  | some _ => (store, ts, none)
  | none =>
      let ts2 := renumber_tasks (ts ++ [new_task])
      (.records (save_tasks ts2), ts2, some new_task)

/-- The `for i, task in enumerate(tasks)` loop of `update_task`: find the
first task with the given id and replace it by the merged task. -/
def updateLoop (task_id : String) (u : Updates) : List Task → Option (List Task × Task)
  | [] => none
  | t :: rest =>
      if t.task_id = task_id then some (mergeTask t u :: rest, mergeTask t u)
      else (updateLoop task_id u rest).map (fun p => (t :: p.1, p.2))

/-- `update_task`: merge the updates into the first matching task, save,
and return the updated task; with no match return everything unchanged. -/
def update_task (store : FileState) (ts : List Task) (task_id : String) (u : Updates) :
    FileState × List Task × Option Task :=
  match updateLoop task_id u ts with
  | some (ts2, t2) => (.records (save_tasks ts2), ts2, some t2)
  | none => (store, ts, none)

/-- `delete_task`: keep the non-matching tasks, renumber, save. -/
def delete_task (store : FileState) (ts : List Task) (task_id : String) :
    FileState × List Task :=
  let ts2 := renumber_tasks (ts.filter (fun t => t.task_id ≠ task_id))
  (.records (save_tasks ts2), ts2)

/-- `filter_tasks`: a pure list comprehension per status. The middle
component is the final contents of the caller's list (a comprehension
builds a new list, leaving its input untouched), the last the returned
sub-list — the whole list for an unrecognized criterion. The body never
touches the file. -/
def filter_tasks (store : FileState) (ts : List Task) (filter_by : String) :
    FileState × List Task × List Task :=
  match filter_by with
  | "Pending" => (store, ts, ts.filter (fun t => t.status = "Pending"))
  | "Completed" => (store, ts, ts.filter (fun t => t.status = "Completed"))
  | "Overdue" => (store, ts, ts.filter (fun t => t.status = "Overdue"))
  | _ => (store, ts, ts)

/-- `sort_tasks`: dispatch on the key to the in-place `my_sorted`. The
middle component is the final state of the caller's list, the last the
returned list; `my_sorted` returns its mutated argument, so on the two
recognized keys they are the same sorted list. The body never touches the
file. -/
def sort_tasks (store : FileState) (ts : List Task) (sort_by : String) :
    FileState × List Task × List Task :=
  match sort_by with
  | "Priority" =>
      let l := my_sorted (fun a b => decide (a.priority > b.priority)) ts
      (store, l, l)
  | "Due Date" =>
      let l := my_sorted (fun a b => dtGt a.due_date b.due_date) ts
      (store, l, l)
  | _ => (store, ts, ts)

end Imp

namespace Func

/-- `my_sorted` of the functional variant: `bubble_sort` runs on a copy of
the argument (`iterable[:]`), so the caller's list is untouched; on an
empty list `bubble_sort([], 0, 0)` evaluates `arr[0]` and raises
`IndexError`, modelled by `none`. -/
def my_sorted {α : Type} (gt : α → α → Bool) (l : List α) : Option (List α) :=
  match l with
  | [] => none
  | _ :: _ => some (bubbleAux gt (l.length - 1) l)

/-- `TaskManager.validate_task`: validity flag and message. -/
def validate_task (now : DateTime) (priority : Int) (due_date : DateTime) :
    Bool × String :=
  if priority < 1 ∨ priority > 10 then (false, "Priority must be between 1 and 10!")
  else if dtLe due_date now = true then (false, "Due date must be in the future!")
  else (true, "Task is valid")

/-- `TaskManager.add_task`: append the new `Pending` task and return it.
The method performs no validation, no renumbering, and no save — those
are done by its caller. -/
def add_task (ts : List Task) (description : String) (due_date : DateTime)
    (priority : Int) : List Task × Task :=
  let new_task : Task :=
    { task_id := "T" ++ toString (ts.length + 1)
      description := description
      due_date := due_date
      priority := priority
      status := "Pending" }
  (ts ++ [new_task], new_task)

/-- `update_recursively`: rebuild the list, replacing the first task whose
id matches by `custom_replace` applied to the present update fields. -/
def updateRec (task_id : String) (u : Updates) : List Task → List Task × Option Task
  | [] => ([], none)
  | t :: rest =>
      if t.task_id = task_id then (mergeTask t u :: rest, some (mergeTask t u))
      else
        let p := updateRec task_id u rest
        (t :: p.1, p.2)

/-- `TaskManager.update_task`: the recursion's result; the `save_tasks`
call in the source is commented out, so the store is not involved. -/
def update_task (ts : List Task) (task_id : String) (u : Updates) :
    List Task × Option Task :=
  updateRec task_id u ts

/-- `delete_recursively`: append each non-matching task to the accumulator
`result` and return it. -/
def deleteRec (task_id : String) : List Task → List Task → List Task
  | [], result => result
  | t :: rest, result =>
      deleteRec task_id rest (if t.task_id ≠ task_id then result ++ [t] else result)

/-- `TaskManager.delete_task`: `delete_recursively` with its
default-argument accumulator `result=[]`. The recursion is a nested def,
so that default is re-created — empty — on every call of the method;
`acc` stands for the accumulator's initial contents and is therefore
`[]` wherever the program is modelled. The first component is the
accumulator's final contents (the returned list is that same object).
The method does not renumber and does not save — the source comment says
"removed renumber and save". -/
def delete_task (acc : List Task) (ts : List Task) (task_id : String) :
    List Task × List Task :=
  let r := deleteRec task_id ts acc
  (r, r)

/-- `filter_recursively`: append the tasks passing the criterion (all of
them for an unrecognized criterion) to the accumulator. -/
def filterRec (filter_by : String) : List Task → List Task → List Task
  | [], acc => acc
  | t :: rest, acc =>
      filterRec filter_by rest
        (match filter_by with
         | "Pending" => if t.status = "Pending" then acc ++ [t] else acc
         | "Completed" => if t.status = "Completed" then acc ++ [t] else acc
         | "Overdue" => if t.status = "Overdue" then acc ++ [t] else acc
         | _ => acc ++ [t])

/-- `TaskManager.filter_tasks`: `filter_recursively` starting from its
default accumulator `filtered_tasks=[]`; the recursion is a nested def,
so that default is re-evaluated — fresh and empty — on every call. The
first component is the final contents of the caller's list (unchanged:
the recursion copies with `tasks[1:]` and appends only to the
accumulator), the second the returned list. -/
def filter_tasks (ts : List Task) (filter_by : String) : List Task × List Task :=
  (ts, filterRec filter_by ts [])

/-- `TaskManager.sort_tasks` with `sort_function` instantiated to the
functional `my_sorted`, as the only caller (`apply_sort`) does. The
middle component is the final state of the caller's list — unchanged,
because `my_sorted` sorts a copy. The body never touches the file. -/
def sort_tasks (store : FileState) (ts : List Task) (sort_by : String) :
    FileState × List Task × Option (List Task) :=
  match sort_by with
  | "Priority" => (store, ts, my_sorted (fun a b => decide (a.priority > b.priority)) ts)
  | "Due Date" => (store, ts, my_sorted (fun a b => dtGt a.due_date b.due_date) ts)
  | _ => (store, ts, some ts)

/-- `TaskManager.renumber_tasks`: `custom_replace` every task's id to its
1-based position. -/
def renumber_tasks (ts : List Task) : List Task := renumberFrom 0 ts

/-- `create_task_from_dict`: records in order, accumulating converted
tasks (this accumulator is extended with `+`, never mutated, so its
default value is harmless). -/
def createRec : List TaskDict → List Task → Except PyErr (List Task)
  | [], acc => .ok acc
  | r :: rest, acc =>
    match loadRecord r with
    | .error e => .error e
    | .ok t => createRec rest (acc ++ [t])

/-- `TaskManager.load_tasks`: same exception contract as the imperative
loader. -/
def load_tasks : FileState → Except PyErr (List Task)
  | .absent => .ok []
  | .invalidJson => .ok []
  | .records rs =>
    match createRec rs [] with
    | .ok ts => .ok ts
    | .error .keyError => .ok []
    | .error .valueError => .error .valueError

/-- `TaskManager.save_tasks` (`build_task_dicts`): the JSON array written
to the file. -/
def save_tasks (ts : List Task) : List TaskDict := ts.map taskToDict

end Func

/-! Helper lemmas: date rendering and parsing round trip. -/

theorem data_mk (l : List Char) : (String.mk l).data = l := rfl

theorem charVal_digitChar {n : Nat} (h : n < 10) : charVal (digitChar n) = n := by
  interval_cases n <;> rfl

theorem isDigitChar_digitChar {n : Nat} (h : n < 10) : isDigitChar (digitChar n) = true := by
  interval_cases n <;> rfl

theorem readDigits2_pad2 {n : Nat} (h : n < 100) (rest : List Char) :
    readDigits2 (pad2 n ++ rest) = some (n, rest) := by
  have h1 : n / 10 < 10 := by omega
  have h2 : n % 10 < 10 := by omega
  simp only [pad2, List.cons_append, List.nil_append, readDigits2,
    isDigitChar_digitChar h1, isDigitChar_digitChar h2, if_true,
    charVal_digitChar h1, charVal_digitChar h2, Option.some.injEq, Prod.mk.injEq]
  exact ⟨by omega, trivial⟩

theorem readDigits4_pad4 {n : Nat} (h : n < 10000) (rest : List Char) :
    readDigits4 (pad4 n ++ rest) = some (n, rest) := by
  have h1 : n / 1000 < 10 := by omega
  have h2 : n / 100 % 10 < 10 := by omega
  have h3 : n / 10 % 10 < 10 := by omega
  have h4 : n % 10 < 10 := by omega
  simp only [pad4, List.cons_append, List.nil_append, readDigits4,
    isDigitChar_digitChar h1, isDigitChar_digitChar h2, isDigitChar_digitChar h3,
    isDigitChar_digitChar h4, Bool.and_self, if_true,
    charVal_digitChar h1, charVal_digitChar h2, charVal_digitChar h3, charVal_digitChar h4,
    Option.some.injEq, Prod.mk.injEq]
  exact ⟨by omega, trivial⟩

theorem readDigits2_pad2_nil {n : Nat} (h : n < 100) :
    readDigits2 (pad2 n) = some (n, []) := by
  have h1 : n / 10 < 10 := by omega
  have h2 : n % 10 < 10 := by omega
  simp only [pad2, readDigits2, isDigitChar_digitChar h1, isDigitChar_digitChar h2,
    if_true, charVal_digitChar h1, charVal_digitChar h2, Option.some.injEq, Prod.mk.injEq]
  exact ⟨by omega, trivial⟩

theorem expectChar_cons (c : Char) (rest : List Char) :
    expectChar c (c :: rest) = some rest := by
  simp [expectChar]

theorem daysInMonth_le (y m : Nat) : daysInMonth y m ≤ 31 := by
  unfold daysInMonth
  split
  · split <;> omega
  all_goals omega

/-- Rendering a valid date-time with `strftime` and parsing it back with
`strptime` recovers the date-time with sub-second precision dropped. -/
theorem parseDT_formatDT {d : DateTime} (h : ValidDT d) :
    parseDT (formatDT d) = some ⟨d.year, d.month, d.day, d.hour, d.minute, d.second, 0⟩ := by
  obtain ⟨h1, h2, h3, h4, h5, h6, h7, h8, h9⟩ := h
  have hy : d.year < 10000 := by omega
  have hmo : d.month < 100 := by omega
  have hd : d.day < 100 := by
    have := daysInMonth_le d.year d.month
    omega
  have hh : d.hour < 100 := by omega
  have hmi : d.minute < 100 := by omega
  have hs : d.second < 100 := by omega
  simp only [parseDT, formatDT, data_mk]
  rw [readDigits4_pad4 hy]
  simp only [Option.bind_eq_bind, Option.some_bind, expectChar_cons,
    readDigits2_pad2 hmo, readDigits2_pad2 hd, readDigits2_pad2 hh,
    readDigits2_pad2 hmi, readDigits2_pad2_nil hs]
  simp [h1, h3, h4, h5, h6, h7, h8, h9]

theorem loadRecord_taskToDict {t : Task} (h : ValidDT t.due_date) :
    loadRecord (taskToDict t) =
      .ok { t with due_date := { t.due_date with microsecond := 0 } } := by
  simp [loadRecord, taskToDict, parseDT_formatDT h]

theorem loadRecords_map {ts : List Task} (h : ∀ t ∈ ts, ValidDT t.due_date) :
    loadRecords (ts.map taskToDict) =
      .ok (ts.map fun t => { t with due_date := { t.due_date with microsecond := 0 } }) := by
  induction ts with
  | nil => rfl
  | cons t rest ih =>
      have ht : ValidDT t.due_date := h t (by simp)
      have hrest : ∀ x ∈ rest, ValidDT x.due_date := fun x hx => h x (by simp [hx])
      simp [loadRecords, loadRecord_taskToDict ht, ih hrest]

/-! Helper lemmas: the functional loader agrees with the imperative one. -/

theorem createRec_eq (rs : List TaskDict) :
    ∀ acc, Func.createRec rs acc =
      match loadRecords rs with
      | .ok ts => .ok (acc ++ ts)
      | .error e => .error e := by
  induction rs with
  | nil => intro acc; simp [Func.createRec, loadRecords]
  | cons r rest ih =>
      intro acc
      cases hl : loadRecord r with
      | error e => simp [Func.createRec, loadRecords, hl]
      | ok t =>
          simp only [Func.createRec, loadRecords, hl]
          rw [ih (acc ++ [t])]
          cases loadRecords rest with
          | error e => rfl
          | ok ts => simp

theorem load_tasks_eq (fs : FileState) : Func.load_tasks fs = Imp.load_tasks fs := by
  cases fs with
  | absent => rfl
  | invalidJson => rfl
  | records rs =>
      simp only [Func.load_tasks, Imp.load_tasks, createRec_eq rs []]
      cases loadRecords rs with
      | error e => cases e <;> rfl
      | ok ts => simp

/-! Helper lemmas: loader failure modes. -/

/-- Whether a record is missing one of the five required keys. -/
def fieldMissing (r : TaskDict) : Bool :=
  r.task_id.isNone || r.description.isNone || r.due_date.isNone ||
  r.priority.isNone || r.status.isNone

/-- Whether the record's due-date string (if present) parses. -/
def dueDateParses (r : TaskDict) : Bool :=
  match r.due_date with
  | none => true
  | some s => (parseDT s).isSome

/-- Whether converting the record succeeds. -/
def recordParses (r : TaskDict) : Bool := !fieldMissing r && dueDateParses r

theorem loadRecord_of_recordParses {r : TaskDict} (h : recordParses r = true) :
    ∃ t, loadRecord r = .ok t := by
  obtain ⟨ti, de, dd, pr, st⟩ := r
  simp only [recordParses, fieldMissing, dueDateParses] at h
  cases ti <;> cases de <;> cases dd <;> cases pr <;> cases st <;> simp_all [loadRecord]
  rename_i ti2 de2 s pr2 st2
  cases hp : parseDT s with
  | none => rw [hp] at h; simp at h
  | some dt => exact ⟨⟨ti2, de2, dt, pr2, st2⟩, by simp [hp]⟩

theorem loadRecord_keyError {r : TaskDict} (hmiss : fieldMissing r = true)
    (hsafe : (r.task_id.isNone || r.description.isNone || r.due_date.isNone ||
              dueDateParses r) = true) :
    loadRecord r = .error .keyError := by
  obtain ⟨ti, de, dd, pr, st⟩ := r
  simp only [fieldMissing, dueDateParses] at hmiss hsafe
  cases ti <;> cases de <;> cases dd <;> simp_all [loadRecord]
  rename_i s
  cases hp : parseDT s with
  | none => simp [hp] at hsafe
  | some dt => cases pr <;> cases st <;> simp_all [hp]

theorem loadRecord_valueError {r : TaskDict} (hmiss : fieldMissing r = false)
    (hdp : dueDateParses r = false) :
    loadRecord r = .error .valueError := by
  obtain ⟨ti, de, dd, pr, st⟩ := r
  simp only [fieldMissing, dueDateParses] at hmiss hdp
  cases ti <;> cases de <;> cases dd <;> cases pr <;> cases st <;> simp_all [loadRecord]

theorem loadRecords_keyError :
    ∀ (pre : List TaskDict) (r : TaskDict) (post : List TaskDict),
      (∀ q ∈ pre, recordParses q = true) → fieldMissing r = true →
      (r.task_id.isNone || r.description.isNone || r.due_date.isNone ||
       dueDateParses r) = true →
      loadRecords (pre ++ r :: post) = .error .keyError := by
  intro pre
  induction pre with
  | nil =>
      intro r post _ hmiss hsafe
      simp [loadRecords, loadRecord_keyError hmiss hsafe]
  | cons q pre ih =>
      intro r post hpre hmiss hsafe
      obtain ⟨t, hq⟩ := loadRecord_of_recordParses (hpre q (by simp))
      have := ih r post (fun x hx => hpre x (by simp [hx])) hmiss hsafe
      simp [loadRecords, hq, this]

theorem loadRecords_valueError :
    ∀ (rs : List TaskDict),
      (∀ q ∈ rs, fieldMissing q = false) → (∃ q ∈ rs, dueDateParses q = false) →
      loadRecords rs = .error .valueError := by
  intro rs
  induction rs with
  | nil => intro _ hex; simp at hex
  | cons r rest ih =>
      intro hmiss hex
      cases hdp : dueDateParses r with
      | false =>
          simp [loadRecords, loadRecord_valueError (hmiss r (by simp)) hdp]
      | true =>
          have hr : recordParses r = true := by
            simp [recordParses, hmiss r (by simp), hdp]
          obtain ⟨t, hq⟩ := loadRecord_of_recordParses hr
          have hex2 : ∃ q ∈ rest, dueDateParses q = false := by
            obtain ⟨q, hq1, hq2⟩ := hex
            rcases List.mem_cons.mp hq1 with h | h
            · subst h; simp [hdp] at hq2
            · exact ⟨q, h, hq2⟩
          have := ih (fun x hx => hmiss x (by simp [hx])) hex2
          simp [loadRecords, hq, this]

/-! Helper lemmas: bubble-sort stability. -/

theorem filter_passUpTo {α : Type} (gt : α → α → Bool) (f : α → Bool)
    (hg : ∀ a b, f a = true → f b = true → gt a b = false) :
    ∀ (k : Nat) (l : List α), (passUpTo gt k l).filter f = l.filter f := by
  intro k
  induction k with
  | zero => intro l; rfl
  | succ k ih =>
      intro l
      rcases l with _ | ⟨a, _ | ⟨b, rest⟩⟩
      · rfl
      · rfl
      · by_cases hab : gt a b = true
        · cases hfb : f b with
          | false => simp [passUpTo, hab, List.filter_cons, hfb, ih (a :: rest)]
          | true =>
              have hfa : f a = false := by
                cases hfa2 : f a with
                | false => rfl
                | true => rw [hg a b hfa2 hfb] at hab; exact absurd hab (by simp)
              simp [passUpTo, hab, List.filter_cons, hfb, hfa, ih (a :: rest)]
        · have hab2 : gt a b = false := by simpa using hab
          simp [passUpTo, hab2, List.filter_cons, ih (b :: rest)]

theorem filter_bubbleAux {α : Type} (gt : α → α → Bool) (f : α → Bool)
    (hg : ∀ a b, f a = true → f b = true → gt a b = false) :
    ∀ (m : Nat) (l : List α), (bubbleAux gt m l).filter f = l.filter f := by
  intro m
  induction m with
  | zero => intro l; rfl
  | succ m ih =>
      intro l
      rw [bubbleAux, ih, filter_passUpTo gt f hg]

/-! Helper lemmas: renumbering. -/

theorem renumberFrom_length : ∀ (l : List Task) (i : Nat),
    (renumberFrom i l).length = l.length := by
  intro l
  induction l with
  | nil => intro i; rfl
  | cons t rest ih => intro i; simp [renumberFrom, ih]

theorem renumberFrom_get : ∀ (l : List Task) (i j : Nat) (h : j < (renumberFrom i l).length),
    ((renumberFrom i l).get ⟨j, h⟩).task_id = "T" ++ toString (i + j + 1) := by
  intro l
  induction l with
  | nil => intro i j h; simp [renumberFrom] at h
  | cons t rest ih =>
      intro i j h
      match j with
      | 0 => simp [renumberFrom]
      | Nat.succ j =>
          have h2 : j < (renumberFrom (i + 1) rest).length := by
            simpa [renumberFrom] using h
          have := ih (i + 1) j h2
          have harith : i + 1 + j + 1 = i + (j + 1) + 1 := by omega
          rw [harith] at this
          simpa [renumberFrom] using this

theorem numbered_renumberFrom (ts : List Task) : Numbered (renumberFrom 0 ts) := by
  intro i h
  have := renumberFrom_get ts 0 i h
  simpa using this

/-! Helper lemmas: locating the first matching task in an update. -/

theorem updateLoop_found (u : Updates) (task_id : String) :
    ∀ (pre : List Task) (t : Task) (post : List Task), t.task_id = task_id →
      (∀ x ∈ pre, x.task_id ≠ task_id) →
      Imp.updateLoop task_id u (pre ++ t :: post) =
        some (pre ++ mergeTask t u :: post, mergeTask t u) := by
  intro pre
  induction pre with
  | nil => intro t post ht _; simp [Imp.updateLoop, ht]
  | cons p pre ih =>
      intro t post ht hpre
      have hp : ¬ p.task_id = task_id := hpre p (by simp)
      simp [Imp.updateLoop, hp, ih t post ht (fun x hx => hpre x (by simp [hx]))]

theorem updateLoop_notfound (u : Updates) (task_id : String) :
    ∀ (ts : List Task), (∀ x ∈ ts, x.task_id ≠ task_id) →
      Imp.updateLoop task_id u ts = none := by
  intro ts
  induction ts with
  | nil => intro _; rfl
  | cons t rest ih =>
      intro h
      have ht : ¬ t.task_id = task_id := h t (by simp)
      simp [Imp.updateLoop, ht, ih (fun x hx => h x (by simp [hx]))]

theorem updateRec_found (u : Updates) (task_id : String) :
    ∀ (pre : List Task) (t : Task) (post : List Task), t.task_id = task_id →
      (∀ x ∈ pre, x.task_id ≠ task_id) →
      Func.updateRec task_id u (pre ++ t :: post) =
        (pre ++ mergeTask t u :: post, some (mergeTask t u)) := by
  intro pre
  induction pre with
  | nil => intro t post ht _; simp [Func.updateRec, ht]
  | cons p pre ih =>
      intro t post ht hpre
      have hp : ¬ p.task_id = task_id := hpre p (by simp)
      simp [Func.updateRec, hp, ih t post ht (fun x hx => hpre x (by simp [hx]))]

theorem updateRec_notfound (u : Updates) (task_id : String) :
    ∀ (ts : List Task), (∀ x ∈ ts, x.task_id ≠ task_id) →
      Func.updateRec task_id u ts = (ts, none) := by
  intro ts
  induction ts with
  | nil => intro _; rfl
  | cons t rest ih =>
      intro h
      have ht : ¬ t.task_id = task_id := h t (by simp)
      simp [Func.updateRec, ht, ih (fun x hx => h x (by simp [hx]))]

/-! Concrete sample data for witnesses and counterexamples. -/

/-- A future due date (relative to `nowDate`). -/
def sampleDate : DateTime := ⟨2999, 1, 1, 0, 0, 0, 0⟩

/-- A second, later future due date. -/
def sampleDate2 : DateTime := ⟨2999, 2, 1, 0, 0, 0, 0⟩

/-- A stand-in for `datetime.now()` in concrete scenarios. -/
def nowDate : DateTime := ⟨2024, 6, 1, 12, 0, 0, 0⟩

/-- A pending task at position 1. -/
def sampleTask1 : Task := ⟨"T1", "Write report", sampleDate, 3, "Pending"⟩

/-- A completed task at position 2. -/
def sampleTask2 : Task := ⟨"T2", "Review PR", sampleDate2, 1, "Completed"⟩

/-- A record whose due-date string does not match `%Y-%m-%d %H:%M:%S`. -/
def badDateRecord : TaskDict :=
  ⟨some "T1", some "a", some "garbage", some 3, some "Pending"⟩

/-- A record missing the required `task_id` key. -/
def missingIdRecord : TaskDict :=
  ⟨none, some "b", some "2999-01-01 00:00:00", some 1, some "Pending"⟩

/-- A record missing the required `priority` key, with a well-formed date. -/
def missingPriorityRecord : TaskDict :=
  ⟨some "T2", some "b", some "2999-01-01 00:00:00", none, some "Pending"⟩

/-- A task whose due date carries sub-second precision. -/
def subSecondTask : Task := ⟨"T1", "a", ⟨2999, 1, 1, 10, 30, 15, 250000⟩, 3, "Pending"⟩

/-! Claim theorems. -/

/-- C1 (counterexample): the renumbering invariant fails as stated — the
functional variant's `delete_task` does not renumber, so deleting `"T1"`
from `[T1, T2]` leaves the remaining task carrying id `"T2"` at
position 0 (the accumulator argument is the empty list its per-call
default evaluates to). -/
theorem spec_renumbering_counterexample :
    ¬ Numbered (Func.delete_task [] [sampleTask1, sampleTask2] "T1").2 := by
  decide

/-- C1 (amended): in the imperative variant the invariant holds as
claimed — `delete_task` renumbers unconditionally and `add_task`
preserves the invariant (it renumbers on success and leaves the list
untouched on validation failure); in the functional variant
`delete_task` itself does not renumber, and the invariant is established
only by the caller's subsequent `renumber_tasks`. -/
theorem spec_renumbering_amended :
    (∀ (store : FileState) (ts : List Task) (task_id : String),
        Numbered (Imp.delete_task store ts task_id).2) ∧
    (∀ (now : DateTime) (store : FileState) (ts : List Task) (d : String)
        (due : DateTime) (p : Int), Numbered ts →
        Numbered (Imp.add_task now store ts d due p).2.1) ∧
    (∀ ts : List Task, Numbered (Func.renumber_tasks ts)) := by
  refine ⟨?_, ?_, ?_⟩
  · intro store ts task_id
    simp only [Imp.delete_task, Imp.renumber_tasks]
    exact numbered_renumberFrom _
  · intro now store ts d due p hN
    simp only [Imp.add_task]
    split
    · exact hN
    · simp only [Imp.renumber_tasks]
      exact numbered_renumberFrom _
  · intro ts
    exact numbered_renumberFrom ts

/-- C1 (witness): a successful imperative add on a well-numbered list
yields a well-numbered list. -/
theorem spec_renumbering_witness :
    Numbered [sampleTask1] ∧
    Numbered (Imp.add_task nowDate .absent [sampleTask1] "x" sampleDate2 5).2.1 :=
  ⟨by decide,
   spec_renumbering_amended.2.1 nowDate .absent [sampleTask1] "x" sampleDate2 5 (by decide)⟩

/-- C2 (counterexample): the validation gate fails as stated — the
functional variant's `add_task` runs no validation, so adding with
priority 0 (outside [1,10]) modifies the list instead of leaving it
unchanged with no created task. -/
theorem spec_add_validation_counterexample :
    (Func.add_task [] "Write report" sampleDate 0).1 ≠ [] := by
  decide

/-- C2 (amended): in the imperative variant the gate holds as claimed —
an out-of-range priority or a due date not strictly after `now` leaves
the list unchanged, returns no task, and persists nothing, while a valid
input appends the `Pending` task, renumbers the whole list, persists it,
and returns the created task; in the functional variant `add_task`
itself performs no validation, renumbering, or persistence — it always
appends the new `Pending` task (validation is its caller's job). -/
theorem spec_add_validation_amended :
    (∀ (now : DateTime) (store : FileState) (ts : List Task) (d : String)
        (due : DateTime) (p : Int), (p < 1 ∨ p > 10 ∨ dtLe due now = true) →
        Imp.add_task now store ts d due p = (store, ts, none)) ∧
    (∀ (now : DateTime) (store : FileState) (ts : List Task) (d : String)
        (due : DateTime) (p : Int), 1 ≤ p → p ≤ 10 → dtLe due now = false →
        Imp.add_task now store ts d due p =
          (.records (Imp.save_tasks (Imp.renumber_tasks
              (ts ++ [⟨"T" ++ toString (ts.length + 1), d, due, p, "Pending"⟩]))),
           Imp.renumber_tasks (ts ++ [⟨"T" ++ toString (ts.length + 1), d, due, p, "Pending"⟩]),
           some ⟨"T" ++ toString (ts.length + 1), d, due, p, "Pending"⟩)) ∧
    (∀ (ts : List Task) (d : String) (due : DateTime) (p : Int),
        Func.add_task ts d due p =
          (ts ++ [⟨"T" ++ toString (ts.length + 1), d, due, p, "Pending"⟩],
           ⟨"T" ++ toString (ts.length + 1), d, due, p, "Pending"⟩)) := by
  refine ⟨?_, ?_, ?_⟩
  · intro now store ts d due p h
    simp only [Imp.add_task, Imp.validate_task]
    by_cases hc : p < 1 ∨ p > 10
    · rw [if_pos hc]
    · have hd : dtLe due now = true := by tauto
      rw [if_neg hc, if_pos hd]
  · intro now store ts d due p h1 h2 h3
    simp only [Imp.add_task, Imp.validate_task]
    rw [if_neg (by omega), if_neg (by simp [h3])]
  · intro ts d due p
    rfl

/-- C2 (witness): a rejected and an accepted imperative add at concrete
inputs. -/
theorem spec_add_validation_witness :
    Imp.add_task nowDate .absent [] "x" sampleDate 0 = (.absent, [], none) ∧
    Imp.add_task nowDate .absent [] "x" sampleDate 3 =
      (.records [taskToDict ⟨"T1", "x", sampleDate, 3, "Pending"⟩],
       [⟨"T1", "x", sampleDate, 3, "Pending"⟩],
       some ⟨"T1", "x", sampleDate, 3, "Pending"⟩) := by
  constructor
  · exact spec_add_validation_amended.1 nowDate .absent [] "x" sampleDate 0 (Or.inl (by decide))
  · have := spec_add_validation_amended.2.1 nowDate .absent [] "x" sampleDate 3
      (by decide) (by decide) (by decide)
    rw [this]
    decide

/-- C3: partial update semantics hold in both variants — with a first
matching task, exactly the fields present in the updates are replaced
(absent fields and `task_id` keep their prior values, spelled out in the
last conjunct), every other task is unchanged, and the updated task is
returned; with no matching task the list is returned unchanged together
with `None`. -/
theorem spec_partial_update :
    (∀ (store : FileState) (pre : List Task) (t : Task) (post : List Task)
        (task_id : String) (u : Updates),
        t.task_id = task_id → (∀ x ∈ pre, x.task_id ≠ task_id) →
        Imp.update_task store (pre ++ t :: post) task_id u =
          (.records (Imp.save_tasks (pre ++ mergeTask t u :: post)),
           pre ++ mergeTask t u :: post, some (mergeTask t u)) ∧
        Func.update_task (pre ++ t :: post) task_id u =
          (pre ++ mergeTask t u :: post, some (mergeTask t u))) ∧
    (∀ (store : FileState) (ts : List Task) (task_id : String) (u : Updates),
        (∀ x ∈ ts, x.task_id ≠ task_id) →
        Imp.update_task store ts task_id u = (store, ts, none) ∧
        Func.update_task ts task_id u = (ts, none)) ∧
    (∀ (t : Task) (u : Updates),
        (mergeTask t u).task_id = t.task_id ∧
        (mergeTask t u).description = u.description.getD t.description ∧
        (mergeTask t u).due_date = u.due_date.getD t.due_date ∧
        (mergeTask t u).priority = u.priority.getD t.priority ∧
        (mergeTask t u).status = u.status.getD t.status) := by
  refine ⟨?_, ?_, ?_⟩
  · intro store pre t post task_id u h1 h2
    constructor
    · simp [Imp.update_task, updateLoop_found u task_id pre t post h1 h2]
    · simp [Func.update_task, updateRec_found u task_id pre t post h1 h2]
  · intro store ts task_id u h
    constructor
    · simp [Imp.update_task, updateLoop_notfound u task_id ts h]
    · simp [Func.update_task, updateRec_notfound u task_id ts h]
  · intro t u
    exact ⟨rfl, rfl, rfl, rfl, rfl⟩

/-- C3 (witness): updating `T2`'s priority to 5 in a concrete two-task
list, and updating an absent id. -/
theorem spec_partial_update_witness :
    Imp.update_task .absent [sampleTask1, sampleTask2] "T2" ⟨none, none, some 5, none⟩ =
      (.records (Imp.save_tasks [sampleTask1, mergeTask sampleTask2 ⟨none, none, some 5, none⟩]),
       [sampleTask1, mergeTask sampleTask2 ⟨none, none, some 5, none⟩],
       some (mergeTask sampleTask2 ⟨none, none, some 5, none⟩)) ∧
    Func.update_task [sampleTask1] "T9" ⟨none, none, some 5, none⟩ = ([sampleTask1], none) :=
  ⟨(spec_partial_update.1 .absent [sampleTask1] sampleTask2 [] "T2"
      ⟨none, none, some 5, none⟩ (by decide) (by decide)).1,
   (spec_partial_update.2.1 .absent [sampleTask1] "T9"
      ⟨none, none, some 5, none⟩ (by decide)).2⟩

/-- C4 (counterexample): update does not reject an invalid merge — in the
imperative variant, patching `T1`'s priority to 0 (outside [1,10])
changes the list instead of returning it unchanged. -/
theorem spec_update_revalidation_counterexample :
    (Imp.update_task .absent [sampleTask1] "T1" ⟨none, none, some 0, none⟩).2.1 ≠
      [sampleTask1] := by
  decide

/-- C4 (amended): neither variant re-runs validation on the merged task —
even when the merged result has a priority outside [1,10] or a due date
not strictly in the future, the update is applied, not rejected. -/
theorem spec_update_revalidation_amended :
    ∀ (now : DateTime) (store : FileState) (pre : List Task) (t : Task)
      (post : List Task) (task_id : String) (u : Updates),
      t.task_id = task_id → (∀ x ∈ pre, x.task_id ≠ task_id) →
      ((mergeTask t u).priority < 1 ∨ (mergeTask t u).priority > 10 ∨
        dtLe (mergeTask t u).due_date now = true) →
      (Imp.update_task store (pre ++ t :: post) task_id u).2.1 =
        pre ++ mergeTask t u :: post ∧
      (Func.update_task (pre ++ t :: post) task_id u).1 =
        pre ++ mergeTask t u :: post := by
  intro now store pre t post task_id u h1 h2 _
  constructor
  · simp [Imp.update_task, updateLoop_found u task_id pre t post h1 h2]
  · simp [Func.update_task, updateRec_found u task_id pre t post h1 h2]

/-- C4 (witness): an update that drives `T1`'s priority to 0 is applied
by both variants. -/
theorem spec_update_revalidation_witness :
    (Imp.update_task .absent [sampleTask1] "T1" ⟨none, none, some 0, none⟩).2.1 =
      [mergeTask sampleTask1 ⟨none, none, some 0, none⟩] ∧
    (Func.update_task [sampleTask1] "T1" ⟨none, none, some 0, none⟩).1 =
      [mergeTask sampleTask1 ⟨none, none, some 0, none⟩] :=
  spec_update_revalidation_amended nowDate .absent [] sampleTask1 [] "T1"
    ⟨none, none, some 0, none⟩ (by decide) (by decide) (Or.inl (by decide))

/-- C5: both hand-written bubble sorts are stable — they swap only on a
strictly greater key, so for each fixed priority (and, under the
due-date key, each fixed due date) the sub-sequence of tasks with that
key value is exactly the input's, which preserves the relative input
order of any two equal-key tasks. The functional variant's result is
stated on the list its sort returns when it returns one. -/
theorem spec_sort_stability :
    (∀ (store : FileState) (ts : List Task) (p : Int),
        ((Imp.sort_tasks store ts "Priority").2.2).filter (fun t => decide (t.priority = p)) =
          ts.filter (fun t => decide (t.priority = p))) ∧
    (∀ (store : FileState) (ts : List Task) (d : DateTime),
        ((Imp.sort_tasks store ts "Due Date").2.2).filter (fun t => decide (t.due_date = d)) =
          ts.filter (fun t => decide (t.due_date = d))) ∧
    (∀ (store : FileState) (ts : List Task) (p : Int) (l : List Task),
        (Func.sort_tasks store ts "Priority").2.2 = some l →
        l.filter (fun t => decide (t.priority = p)) =
          ts.filter (fun t => decide (t.priority = p))) ∧
    (∀ (store : FileState) (ts : List Task) (d : DateTime) (l : List Task),
        (Func.sort_tasks store ts "Due Date").2.2 = some l →
        l.filter (fun t => decide (t.due_date = d)) =
          ts.filter (fun t => decide (t.due_date = d))) := by
  have hgP : ∀ (p : Int) (a b : Task), decide (a.priority = p) = true →
      decide (b.priority = p) = true → decide (a.priority > b.priority) = false := by
    intro p a b ha hb
    simp at ha hb
    simp [ha, hb]
  have hgD : ∀ (d : DateTime) (a b : Task), decide (a.due_date = d) = true →
      decide (b.due_date = d) = true → dtGt a.due_date b.due_date = false := by
    intro d a b ha hb
    simp at ha hb
    simp [dtGt, ha, hb, dtLt_irrefl]
  refine ⟨?_, ?_, ?_, ?_⟩
  · intro store ts p
    exact filter_bubbleAux _ _ (hgP p) _ ts
  · intro store ts d
    exact filter_bubbleAux _ _ (hgD d) _ ts
  · intro store ts p l hl
    cases ts with
    | nil => simp [Func.sort_tasks, Func.my_sorted] at hl
    | cons x xs =>
        simp only [Func.sort_tasks, Func.my_sorted, Option.some.injEq] at hl
        rw [← hl]
        exact filter_bubbleAux _ _ (hgP p) _ (x :: xs)
  · intro store ts d l hl
    cases ts with
    | nil => simp [Func.sort_tasks, Func.my_sorted] at hl
    | cons x xs =>
        simp only [Func.sort_tasks, Func.my_sorted, Option.some.injEq] at hl
        rw [← hl]
        exact filter_bubbleAux _ _ (hgD d) _ (x :: xs)

/-- C5 (witness): sorting a concrete two-task list by priority, the
priority-1 sub-sequence of the output equals that of the input. -/
theorem spec_sort_stability_witness :
    (Func.sort_tasks .absent [sampleTask1, sampleTask2] "Priority").2.2 =
      some [sampleTask2, sampleTask1] ∧
    [sampleTask2, sampleTask1].filter (fun t => decide (t.priority = 1)) =
      [sampleTask1, sampleTask2].filter (fun t => decide (t.priority = 1)) :=
  ⟨by decide,
   spec_sort_stability.2.2.1 .absent [sampleTask1, sampleTask2] 1
     [sampleTask2, sampleTask1] (by decide)⟩

/-- C6 (counterexample): sort is not read-only as claimed — the
imperative `my_sorted` swaps elements of its argument in place, so after
`sort_tasks(tasks, "Priority")` on an unsorted two-task list the
caller's list no longer holds its original contents. -/
theorem spec_sort_readonly_counterexample :
    (Imp.sort_tasks .absent [sampleTask1, sampleTask2] "Priority").2.1 ≠
      [sampleTask1, sampleTask2] := by
  decide

/-- C6 (amended): sort never persists in either variant and an
unrecognized key returns the input unchanged in both; but only the
functional variant leaves its input unchanged (it sorts a copy), and its
hand-written bubble sort fails with `IndexError` on an empty list under
the two recognized keys while returning a sorted list for every
non-empty input; the imperative variant instead sorts the caller's list
in place and returns that same list. -/
theorem spec_sort_readonly_amended :
    (∀ (store : FileState) (ts : List Task) (k : String),
        k ≠ "Priority" → k ≠ "Due Date" →
        Imp.sort_tasks store ts k = (store, ts, ts) ∧
        Func.sort_tasks store ts k = (store, ts, some ts)) ∧
    (∀ (store : FileState) (ts : List Task) (k : String),
        (Imp.sort_tasks store ts k).1 = store ∧ (Func.sort_tasks store ts k).1 = store) ∧
    (∀ (store : FileState) (ts : List Task) (k : String),
        (Imp.sort_tasks store ts k).2.1 = (Imp.sort_tasks store ts k).2.2) ∧
    (∀ (store : FileState) (ts : List Task) (k : String),
        (Func.sort_tasks store ts k).2.1 = ts) ∧
    (∀ store : FileState, (Func.sort_tasks store [] "Priority").2.2 = none ∧
        (Func.sort_tasks store [] "Due Date").2.2 = none) ∧
    (∀ (store : FileState) (ts : List Task) (k : String), ts ≠ [] →
        ∃ l, (Func.sort_tasks store ts k).2.2 = some l) := by
  refine ⟨?_, ?_, ?_, ?_, ?_, ?_⟩
  · intro store ts k h1 h2
    constructor
    · unfold Imp.sort_tasks
      split <;> simp_all
    · unfold Func.sort_tasks
      split <;> simp_all
  · intro store ts k
    constructor
    · unfold Imp.sort_tasks
      split <;> rfl
    · unfold Func.sort_tasks
      split <;> rfl
  · intro store ts k
    unfold Imp.sort_tasks
    split <;> rfl
  · intro store ts k
    unfold Func.sort_tasks
    split <;> rfl
  · intro store
    exact ⟨rfl, rfl⟩
  · intro store ts k h
    cases ts with
    | nil => exact absurd rfl h
    | cons x xs =>
        unfold Func.sort_tasks
        split
        · exact ⟨_, rfl⟩
        · exact ⟨_, rfl⟩
        · exact ⟨_, rfl⟩

/-- C6 (witness): an unrecognized key returns the input unchanged, and
the functional sort returns a list on a non-empty input. -/
theorem spec_sort_readonly_witness :
    Imp.sort_tasks .absent [sampleTask1] "All" = (.absent, [sampleTask1], [sampleTask1]) ∧
    (∃ l, (Func.sort_tasks .absent [sampleTask1] "Priority").2.2 = some l) :=
  ⟨(spec_sort_readonly_amended.1 .absent [sampleTask1] "All" (by decide) (by decide)).1,
   spec_sort_readonly_amended.2.2.2.2.2 .absent [sampleTask1] "Priority" (by decide)⟩

/-- `filter_recursively` with the `"Pending"` criterion appends exactly
the pending tasks, in order, to its accumulator. -/
theorem filterRec_pending : ∀ (ts acc : List Task),
    Func.filterRec "Pending" ts acc =
      acc ++ ts.filter (fun t => decide (t.status = "Pending")) := by
  intro ts
  induction ts with
  | nil => intro acc; simp [Func.filterRec]
  | cons t rest ih =>
      intro acc
      by_cases h : t.status = "Pending" <;>
        simp [Func.filterRec, h, ih, List.filter_cons]

/-- `filter_recursively` with the `"Completed"` criterion appends exactly
the completed tasks, in order, to its accumulator. -/
theorem filterRec_completed : ∀ (ts acc : List Task),
    Func.filterRec "Completed" ts acc =
      acc ++ ts.filter (fun t => decide (t.status = "Completed")) := by
  intro ts
  induction ts with
  | nil => intro acc; simp [Func.filterRec]
  | cons t rest ih =>
      intro acc
      by_cases h : t.status = "Completed" <;>
        simp [Func.filterRec, h, ih, List.filter_cons]

/-- `filter_recursively` with the `"Overdue"` criterion appends exactly
the overdue tasks, in order, to its accumulator. -/
theorem filterRec_overdue : ∀ (ts acc : List Task),
    Func.filterRec "Overdue" ts acc =
      acc ++ ts.filter (fun t => decide (t.status = "Overdue")) := by
  intro ts
  induction ts with
  | nil => intro acc; simp [Func.filterRec]
  | cons t rest ih =>
      intro acc
      by_cases h : t.status = "Overdue" <;>
        simp [Func.filterRec, h, ih, List.filter_cons]

/-- `filter_recursively` with an unrecognized criterion appends every
task to its accumulator. -/
theorem filterRec_default (c : String) (h1 : c ≠ "Pending") (h2 : c ≠ "Completed")
    (h3 : c ≠ "Overdue") : ∀ (ts acc : List Task),
    Func.filterRec c ts acc = acc ++ ts := by
  intro ts
  induction ts with
  | nil => intro acc; simp [Func.filterRec]
  | cons t rest ih =>
      intro acc
      simp only [Func.filterRec]
      rw [ih]
      simp

/-- C7: filter purity and determinism hold in both variants — filter
leaves the caller's list unchanged, never touches the file (the
imperative embedding passes the store through untouched; the functional
method's signature has no store at all), and returns the order-preserving
sub-sequence of tasks whose status equals the criterion, the whole list
for an unrecognized criterion. `filter_recursively` is a nested def, so
its default accumulator is re-created empty on every call: each call —
in particular each of two calls in a row on the same arguments —
computes this same function of its arguments, hence identical results. -/
theorem spec_filter_purity :
    (∀ (store : FileState) (ts : List Task) (c : String),
        (Imp.filter_tasks store ts c).1 = store ∧
        (Imp.filter_tasks store ts c).2.1 = ts ∧
        (Func.filter_tasks ts c).1 = ts) ∧
    (∀ (store : FileState) (ts : List Task),
        (Imp.filter_tasks store ts "Pending").2.2 =
          ts.filter (fun t => decide (t.status = "Pending")) ∧
        (Func.filter_tasks ts "Pending").2 =
          ts.filter (fun t => decide (t.status = "Pending")) ∧
        (Imp.filter_tasks store ts "Completed").2.2 =
          ts.filter (fun t => decide (t.status = "Completed")) ∧
        (Func.filter_tasks ts "Completed").2 =
          ts.filter (fun t => decide (t.status = "Completed")) ∧
        (Imp.filter_tasks store ts "Overdue").2.2 =
          ts.filter (fun t => decide (t.status = "Overdue")) ∧
        (Func.filter_tasks ts "Overdue").2 =
          ts.filter (fun t => decide (t.status = "Overdue"))) ∧
    (∀ (store : FileState) (ts : List Task) (c : String),
        c ≠ "Pending" → c ≠ "Completed" → c ≠ "Overdue" →
        (Imp.filter_tasks store ts c).2.2 = ts ∧ (Func.filter_tasks ts c).2 = ts) := by
  refine ⟨?_, ?_, ?_⟩
  · intro store ts c
    refine ⟨?_, ?_, rfl⟩
    · unfold Imp.filter_tasks
      split <;> rfl
    · unfold Imp.filter_tasks
      split <;> rfl
  · intro store ts
    refine ⟨rfl, ?_, rfl, ?_, rfl, ?_⟩
    · simpa using filterRec_pending ts []
    · simpa using filterRec_completed ts []
    · simpa using filterRec_overdue ts []
  · intro store ts c h1 h2 h3
    constructor
    · unfold Imp.filter_tasks
      split <;> simp_all
    · simpa using filterRec_default c h1 h2 h3 ts []

/-- C7 (witness): the unrecognized criterion `"All"` returns the full
list unfiltered in both variants. -/
theorem spec_filter_purity_witness :
    (Imp.filter_tasks .absent [sampleTask1, sampleTask2] "All").2.2 =
      [sampleTask1, sampleTask2] ∧
    (Func.filter_tasks [sampleTask1, sampleTask2] "All").2 =
      [sampleTask1, sampleTask2] :=
  spec_filter_purity.2.2 .absent [sampleTask1, sampleTask2] "All"
    (by decide) (by decide) (by decide)

/-- C8 (counterexample): silent recovery fails as stated — in a file
whose second record is missing the required `task_id` key but whose
first record carries an unparseable due-date string, the loaders raise
the date-parsing `ValueError` (which the `except` clause does not catch)
instead of returning `[]`. -/
theorem spec_load_recovery_counterexample :
    fieldMissing missingIdRecord = true ∧
    Imp.load_tasks (.records [badDateRecord, missingIdRecord]) = .error .valueError ∧
    Func.load_tasks (.records [badDateRecord, missingIdRecord]) = .error .valueError :=
  ⟨by decide, rfl, rfl⟩

/-- C8 (amended): both loaders return `[]` for an absent file, for
syntactically invalid JSON, and for a record missing a required field —
provided every record before it converts cleanly and the missing-field
record itself raises its `KeyError` before any date-parsing `ValueError`
(its `task_id`, `description`, or `due_date` key is the missing one, or
its due-date string parses). -/
theorem spec_load_recovery_amended :
    (Imp.load_tasks .absent = .ok [] ∧ Func.load_tasks .absent = .ok [] ∧
     Imp.load_tasks .invalidJson = .ok [] ∧ Func.load_tasks .invalidJson = .ok []) ∧
    (∀ (pre : List TaskDict) (r : TaskDict) (post : List TaskDict),
        (∀ q ∈ pre, recordParses q = true) → fieldMissing r = true →
        (r.task_id.isNone || r.description.isNone || r.due_date.isNone ||
         dueDateParses r) = true →
        Imp.load_tasks (.records (pre ++ r :: post)) = .ok [] ∧
        Func.load_tasks (.records (pre ++ r :: post)) = .ok []) := by
  constructor
  · exact ⟨rfl, rfl, rfl, rfl⟩
  · intro pre r post h1 h2 h3
    have hk := loadRecords_keyError pre r post h1 h2 h3
    constructor
    · simp [Imp.load_tasks, hk]
    · rw [load_tasks_eq]
      simp [Imp.load_tasks, hk]

/-- C8 (witness): a good record followed by a record missing `priority`
loads as `[]`. -/
theorem spec_load_recovery_witness :
    (∀ q ∈ [taskToDict sampleTask1], recordParses q = true) ∧
    fieldMissing missingPriorityRecord = true ∧
    Imp.load_tasks (.records ([taskToDict sampleTask1] ++ missingPriorityRecord :: [])) =
      .ok [] :=
  ⟨by decide, by decide,
   (spec_load_recovery_amended.2 [taskToDict sampleTask1] missingPriorityRecord []
      (by decide) (by decide) (by decide)).1⟩

/-- C9: the save/load round trip holds — loading the array `save_tasks`
writes reproduces every task with all fields equal except that the due
date has passed through the `"%Y-%m-%d %H:%M:%S"` rendering, which
truncates its sub-second component to zero. -/
theorem spec_save_load_roundtrip :
    ∀ ts : List Task, (∀ t ∈ ts, ValidDT t.due_date) →
      Imp.load_tasks (.records (Imp.save_tasks ts)) =
        .ok (ts.map fun t => { t with due_date := { t.due_date with microsecond := 0 } }) := by
  intro ts h
  have := loadRecords_map h
  simp [Imp.load_tasks, Imp.save_tasks, this]

/-- C9 (witness): a task with 250000 microseconds round-trips to the same
task with microseconds zeroed. -/
theorem spec_save_load_roundtrip_witness :
    (∀ t ∈ [subSecondTask], ValidDT t.due_date) ∧
    Imp.load_tasks (.records (Imp.save_tasks [subSecondTask])) =
      .ok ([subSecondTask].map fun t =>
        { t with due_date := { t.due_date with microsecond := 0 } }) :=
  ⟨by decide, spec_save_load_roundtrip [subSecondTask] (by decide)⟩

/-- C10: when every record has all five required keys but some record's
due-date string does not parse as `"%Y-%m-%d %H:%M:%S"`, both loaders
raise the uncaught date-parsing `ValueError` instead of returning `[]` —
only `JSONDecodeError`, `KeyError`, and `FileNotFoundError` are caught. -/
theorem spec_load_valueerror :
    ∀ rs : List TaskDict, (∀ q ∈ rs, fieldMissing q = false) →
      (∃ q ∈ rs, dueDateParses q = false) →
      Imp.load_tasks (.records rs) = .error .valueError ∧
      Func.load_tasks (.records rs) = .error .valueError := by
  intro rs h1 h2
  have hv := loadRecords_valueError rs h1 h2
  constructor
  · simp [Imp.load_tasks, hv]
  · rw [load_tasks_eq]
    simp [Imp.load_tasks, hv]

/-- C10 (witness): a single all-keys-present record whose due date reads
`"garbage"` makes both loaders raise `ValueError`. -/
theorem spec_load_valueerror_witness :
    (∀ q ∈ [badDateRecord], fieldMissing q = false) ∧
    (∃ q ∈ [badDateRecord], dueDateParses q = false) ∧
    Imp.load_tasks (.records [badDateRecord]) = .error .valueError :=
  ⟨by decide, by decide,
   (spec_load_valueerror [badDateRecord] (by decide) (by decide)).1⟩

end Planner
